import Mathlib

/-!
Shallow embedding of the transactional resource-allocation core of the
MyHealthPalestine backend: the donation/funding ledger
(`backend/routes/donations.js`, the Stripe webhook route, the sponsorship
verification decision in `backend/routes/users.js`), the consultation
slot-booking coordinator (the consultations route file), and the
medicine-request inventory allocator (`backend/routes/medicineRequests.js`).

Database rows become Lean structures, route handlers become pure functions
from a state plus the request parameters to an outcome plus the new state.
Money and quantities are modelled as `Int` (the code manipulates them as
ordinary numbers); JavaScript falsiness checks on ids and amounts become
`= 0` tests; `undefined` versus `null` request-body fields become
`Option (Option _)`.
-/

namespace HealthPal

/-- Statuses of a treatment request (`treatment_requests.status`). -/
inductive TRStatus
  | open_
  | funded
  | closed
  | cancelled
deriving DecidableEq

/-- One `treatment_requests` row, restricted to the fields the donation
routes read and write. `sponsered` keeps the schema's spelling. -/
structure TreatmentRequest where
  id : Nat
  sponsered : Bool
  goal_amount : Int
  raised_amount : Int
  status : TRStatus
deriving DecidableEq

/-- One `donations` row (append-only ledger entry). -/
structure Donation where
  treatment_request_id : Nat
  donor_id : Nat
  amount : Int
deriving DecidableEq

/-- The slice of database state the funding ledger touches: the targeted
treatment request row and the donations table. -/
structure FundingState where
  request : TreatmentRequest
  donations : List Donation
deriving DecidableEq

/-- Outcomes of `POST /donations` (donations.js). Each constructor is one
early-return branch of the handler; `exceedsRemaining` carries the
`remaining_amount` field the 400 response returns. -/
inductive DonationOutcome
  | missingFields
  | invalidAmount
  | requestNotFound
  | notSponsored
  | missingGoal
  | badStatus
  | exceedsRemaining (remaining_amount : Int)
  | created (donation : Donation)
deriving DecidableEq

/-- Whether a `POST /donations` call succeeded. -/
def DonationOutcome.isCreated : DonationOutcome → Bool
  | .created _ => true
  | _ => false

/-- `POST /donations` (donations.js lines 15-143).  Checks, in the code's
order: required fields (JS falsiness: id or amount equal to 0), positive
amount, request exists, `sponsered`, positive `goal_amount`, status `open`
or `funded`, and `amount ≤ remaining`.  On success it appends the donation
row, adds the amount to `raised_amount`, and sets status to `funded`
exactly when the new total reaches `goal_amount`. -/
def postDonation (st : FundingState) (donorId treatment_request_id : Nat)
    (amount : Int) : DonationOutcome × FundingState :=
  if treatment_request_id = 0 ∨ amount = 0 then (.missingFields, st)
  else if amount ≤ 0 then (.invalidAmount, st)
  else if st.request.id ≠ treatment_request_id then (.requestNotFound, st)
  else if st.request.sponsered = false then (.notSponsored, st)
  else if st.request.goal_amount ≤ 0 then (.missingGoal, st)
  else if st.request.status ≠ .open_ ∧ st.request.status ≠ .funded then
    (.badStatus, st)
  else if st.request.goal_amount - st.request.raised_amount < amount then
    (.exceedsRemaining (st.request.goal_amount - st.request.raised_amount), st)
  else
    let d : Donation := ⟨treatment_request_id, donorId, amount⟩
    let newRaised := st.request.raised_amount + amount
    let newStatus :=
      if st.request.goal_amount ≤ newRaised then TRStatus.funded
      else st.request.status
    (.created d,
      ⟨{ st.request with raised_amount := newRaised, status := newStatus },
        st.donations ++ [d]⟩)

/-- Outcomes of the Stripe webhook's `payment_intent.succeeded` branch. -/
inductive WebhookOutcome
  | missingMetadata
  | requestNotFound
  | applied (donation : Donation)
deriving DecidableEq

/-- The `payment_intent.succeeded` branch of `POST /stripe-webhook`.
After the metadata presence check (JS falsiness) and the request lookup it
performs NO further validation: no `sponsered`, status, positivity or
remaining-amount check.  It appends the donation row, adds the metadata
amount to `raised_amount`, and sets status to `funded` whenever the new
total is at least `goal_amount` (otherwise it keeps the current status). -/
def stripeWebhook (st : FundingState) (treatment_request_id donor_id : Nat)
    (amount : Int) : WebhookOutcome × FundingState :=
  if treatment_request_id = 0 ∨ donor_id = 0 ∨ amount = 0 then
    (.missingMetadata, st)
  else if st.request.id ≠ treatment_request_id then (.requestNotFound, st)
  else
    let d : Donation := ⟨treatment_request_id, donor_id, amount⟩
    let newRaised := st.request.raised_amount + amount
    let newStatus :=
      if st.request.goal_amount ≤ newRaised then TRStatus.funded
      else st.request.status
    (.applied d,
      ⟨{ st.request with raised_amount := newRaised, status := newStatus },
        st.donations ++ [d]⟩)

/-- Effect on the treatment request of approving a sponsorship
verification (`PUT /sponsorship-verifications/:id/approve` with
`approved = true` in users.js): the request is closed. -/
def approveVerification (req : TreatmentRequest) : TreatmentRequest :=
  { req with status := .closed }

/-- Effect on the treatment request of rejecting a sponsorship
verification (`approved = false`): the verification row is deleted and,
when the request had been closed, its status reverts to `funded`. -/
def rejectVerification (req : TreatmentRequest) : TreatmentRequest :=
  if req.status = .closed then { req with status := .funded } else req

/-- First row with the given id (`SELECT ... WHERE id = ?`). -/
def findById {α : Type} (key : α → Nat) (l : List α) (k : Nat) : Option α :=
  l.find? (fun x => key x == k)

/-- `UPDATE ... WHERE id = ?`: rewrite every row whose key matches. -/
def updateById {α : Type} (key : α → Nat) (l : List α) (k : Nat)
    (f : α → α) : List α :=
  l.map (fun x => if key x == k then f x else x)

/-- One `users` row, restricted to what the booking routes read. -/
structure User where
  id : Nat
  role : String
deriving DecidableEq

/-- One `consultation_slots` row. -/
structure Slot where
  id : Nat
  doctor_id : Nat
  is_booked : Bool
  consultation_id : Option Nat
deriving DecidableEq

/-- Consultation statuses (`consultations.status`). -/
inductive CStatus
  | pending
  | confirmed
  | completed
  | cancelled
deriving DecidableEq

/-- One `consultations` row. -/
structure Consultation where
  id : Nat
  patient_id : Nat
  doctor_id : Nat
  slot_id : Option Nat
  status : CStatus
  mode : String
  notes : Option String
  specialty : Option String
deriving DecidableEq

/-- The slice of database state the slot-booking coordinator touches.
`nextConsultationId` models the auto-increment id MySQL hands back as
`insertId`. -/
structure BookingState where
  users : List User
  slots : List Slot
  consultations : List Consultation
  nextConsultationId : Nat
deriving DecidableEq

/-- Outcomes of `POST /consultations`, one per early-return branch of the
handler; `created` carries the new consultation's id. -/
inductive BookOutcome
  | forbiddenRole
  | missingFields
  | notesNotNull
  | invalidMode
  | badDoctor
  | slotNotFound
  | wrongDoctor
  | slotBooked
  | created (id : Nat)
deriving DecidableEq

/-- Whether a `POST /consultations` call succeeded. -/
def BookOutcome.isCreated : BookOutcome → Bool
  | .created _ => true
  | _ => false

/-- The request body's `notes` field: `none` is `undefined`, `some none`
is JSON `null`, `some (some s)` is a string value. -/
abbrev NotesParam := Option (Option String)

/-- `POST /consultations` (Book).  In the handler's order: actor must be a
patient; `doctor_id`, `slot_id`, `mode` required (JS falsiness); `notes`
must be absent or null; `mode` in the allow-list; the doctor row must
exist with role `doctor`; the slot row must exist (locked `FOR UPDATE`),
belong to the doctor, and be unbooked.  On success it inserts one
consultation with status `pending` and `notes` NULL, and updates the slot
to `is_booked = TRUE` with `consultation_id` the new id.  Every failure
rolls back, leaving the state untouched. -/
def postConsultation (st : BookingState) (userId : Nat) (userRole : String)
    (doctor_id slot_id : Nat) (mode : String) (notes : NotesParam) :
    BookOutcome × BookingState :=
  if userRole ≠ "patient" then (.forbiddenRole, st)
  else if doctor_id = 0 ∨ slot_id = 0 ∨ mode = "" then (.missingFields, st)
  else match notes with
  | some (some _) => (.notesNotNull, st)
  | _ =>
    if mode ∉ ["video", "audio", "chat"] then (.invalidMode, st)
    else match findById User.id st.users doctor_id with
    | none => (.badDoctor, st)
    | some u =>
      if u.role ≠ "doctor" then (.badDoctor, st)
      else match findById Slot.id st.slots slot_id with
      | none => (.slotNotFound, st)
      | some slot =>
        if slot.doctor_id ≠ doctor_id then (.wrongDoctor, st)
        else if slot.is_booked then (.slotBooked, st)
        else
          let cid := st.nextConsultationId
          let c : Consultation :=
            { id := cid, patient_id := userId, doctor_id := doctor_id,
              slot_id := some slot_id, status := .pending, mode := mode,
              notes := none, specialty := none }
          (.created cid,
            { st with
              consultations := st.consultations ++ [c],
              slots := updateById Slot.id st.slots slot_id
                (fun s => { s with is_booked := true,
                                   consultation_id := some cid }),
              nextConsultationId := cid + 1 })

/-- Outcomes of `PUT /consultations/:id`. -/
inductive UpdateOutcome
  | forbiddenRole
  | notFound
  | notOwner
  | notesForbidden
  | statusRequired
  | invalidStatus
  | noFields
  | updated
deriving DecidableEq

/-- `PUT /consultations/:id`.  Patients may only set status `cancelled`
on their own consultation and may not touch notes; doctors may set status
`confirmed`/`completed`/`cancelled` and/or notes on their own.  The
handler runs a single `UPDATE consultations ...` — it never touches the
`consultation_slots` table. -/
def putConsultation (st : BookingState) (userId : Nat) (userRole : String)
    (cid : Nat) (statusP : Option CStatus) (notesP : NotesParam) :
    UpdateOutcome × BookingState :=
  if userRole ≠ "patient" ∧ userRole ≠ "doctor" then (.forbiddenRole, st)
  else match findById Consultation.id st.consultations cid with
  | none => (.notFound, st)
  | some c =>
    if userRole = "patient" then
      if c.patient_id ≠ userId then (.notOwner, st)
      else if notesP.isSome then (.notesForbidden, st)
      else match statusP with
      | none => (.statusRequired, st)
      | some s =>
        if s ≠ .cancelled then (.invalidStatus, st)
        else
          (.updated,
            { st with consultations := (updateById Consultation.id
                st.consultations cid (fun x => { x with status := s })) })
    else
      if c.doctor_id ≠ userId then (.notOwner, st)
      else match statusP, notesP with
      | none, none => (.noFields, st)
      | some s, n =>
        if s ∉ [CStatus.confirmed, .completed, .cancelled] then
          (.invalidStatus, st)
        else
          (.updated,
            { st with consultations := (updateById Consultation.id
                st.consultations cid (fun x =>
                    { x with status := s,
                             notes := (match n with
                               | some v => v
                               | none => x.notes) })) })
      | none, some v =>
        (.updated,
          { st with consultations := (updateById Consultation.id
              st.consultations cid (fun x => { x with notes := v })) })

/-- Outcomes of `DELETE /consultations/:id`. -/
inductive DeleteOutcome
  | forbiddenRole
  | notFound
  | deleted
deriving DecidableEq

/-- `DELETE /consultations/:id` (admin only, via the role middleware).
Deletes the consultation row and, when it was linked to a slot, clears
the slot's `is_booked`/`consultation_id` in the same transaction. -/
def deleteConsultation (st : BookingState) (userRole : String) (cid : Nat) :
    DeleteOutcome × BookingState :=
  if userRole ≠ "admin" then (.forbiddenRole, st)
  else match findById Consultation.id st.consultations cid with
  | none => (.notFound, st)
  | some c =>
    let consultations' := st.consultations.filter (fun x => x.id != cid)
    let slots' := match c.slot_id with
      | some sid =>
        updateById Slot.id st.slots sid
          (fun s => { s with is_booked := false, consultation_id := none })
      | none => st.slots
    (.deleted, { st with consultations := consultations', slots := slots' })

/-- Contiguous-substring test on character lists: does `needle` occur
somewhere inside the haystack? -/
def likeAux (needle : List Char) : List Char → Bool
  | [] => needle.isEmpty
  | c :: cs => needle.isPrefixOf (c :: cs) || likeAux needle cs

/-- MySQL `name LIKE '%pattern%'` under the default case-insensitive
collation: case-insensitive substring containment. -/
def likeMatch (name pattern : String) : Bool :=
  likeAux (pattern.data.map Char.toLower) (name.data.map Char.toLower)

/-- One `inventory_registry` row (a lot), restricted to the fields the
allocator reads and writes. -/
structure Lot where
  item_id : Nat
  name : String
  source_id : Nat
  quantity_available : Int
deriving DecidableEq

/-- `WHERE name LIKE ? AND quantity_available > 0`. -/
def lotNameMatches (itemName : String) (l : Lot) : Bool :=
  likeMatch l.name itemName && decide (0 < l.quantity_available)

/-- `WHERE source_id = ? AND name LIKE ? AND quantity_available > 0`. -/
def lotMatches (itemName : String) (src : Nat) (l : Lot) : Bool :=
  l.source_id == src && likeMatch l.name itemName &&
    decide (0 < l.quantity_available)

/-- `SUM(quantity_available)` of one source's matching lots (the per-group
aggregate of the allocator's `GROUP BY source_id` query, and the aggregate
the accept route re-checks for a specific source). -/
def sourceTotal (lots : List Lot) (itemName : String) (src : Nat) : Int :=
  ((lots.filter (lotMatches itemName src)).map
    (fun l => l.quantity_available)).sum

/-- The distinct `source_id`s owning at least one matching lot with
positive quantity: the groups of the `GROUP BY source_id` query. -/
def matchingSources (lots : List Lot) (itemName : String) : List Nat :=
  ((lots.filter (lotNameMatches itemName)).map (fun l => l.source_id)).dedup

/-- The rows the `HAVING total_available >= ?` query returns: each
matching source paired with its aggregate, kept when it meets the needed
quantity. -/
def qualifyingSources (lots : List Lot) (itemName : String)
    (quantityNeeded : Int) : List (Nat × Int) :=
  ((matchingSources lots itemName).map
    (fun s => (s, sourceTotal lots itemName s))).filter
    (fun p => decide (quantityNeeded ≤ p.2))

/-- The JS `Array.reduce((prev, cur) => prev.total > cur.total ? prev : cur)`
step function applied along the list. -/
def pickBestAux (p : Nat × Int) : List (Nat × Int) → Nat × Int
  | [] => p
  | c :: cs => pickBestAux (if c.2 < p.2 then p else c) cs

/-- `reduce` over the qualifying rows: `none` on an empty list, otherwise
the row with the largest aggregate (later rows win ties, as in the JS). -/
def pickBest : List (Nat × Int) → Option (Nat × Int)
  | [] => none
  | x :: xs => some (pickBestAux x xs)

/-- Medicine-request statuses (`medicine_requests.status`). -/
inductive MRStatus
  | pending
  | available
  | in_progress
  | fulfilled
  | rejected
  | cancelled
deriving DecidableEq

/-- Result of the inventory check: the status to store and the source to
assign. -/
structure InvCheck where
  status : MRStatus
  assigned_source_id : Option Nat
deriving DecidableEq

/-- `checkInventoryAndSetStatus` (medicineRequests.js lines 16-59): if some
source's aggregate over matching positive-quantity lots meets the needed
quantity, return `available` with the source the `reduce` picks (a source
of maximal aggregate); otherwise `pending` with no source.  (The handler's
second query, which checks whether any insufficient inventory exists at
all, returns `pending`/`null` on both of its branches.) -/
def checkInventoryAndSetStatus (lots : List Lot) (itemName : String)
    (quantityNeeded : Int) : InvCheck :=
  match pickBest (qualifyingSources lots itemName quantityNeeded) with
  | some best => ⟨.available, some best.1⟩
  | none => ⟨.pending, none⟩

/-- One `medicine_requests` row, restricted to the fields the allocator
routes read and write. -/
structure MedicineRequest where
  request_id : Nat
  patient_id : Nat
  item_name_requested : String
  quantity_needed : Int
  delivery_location : String
  assigned_source_id : Option Nat
  status : MRStatus
  notes : Option String
  fulfilled_by : Option Nat
deriving DecidableEq

/-- The slice of database state the inventory allocator touches: the
targeted medicine request row and the inventory table. -/
structure MRState where
  request : MedicineRequest
  lots : List Lot
deriving DecidableEq

/-- Outcomes of the medicine-request mutation routes, one per
early-return branch. -/
inductive MROutcome
  | forbidden
  | notOwner
  | badStatus
  | insufficientInventory
  | noFields
  | ok
deriving DecidableEq

/-- Roles allowed to act as supply sources. -/
def sourceRoles : List String := ["hospital", "ngo", "donor"]

/-- `PUT /medicine-requests/:id/accept`: sources only; allowed from
`pending`, `available` or `rejected`; re-checks the acting source's own
aggregate (`!total || total < quantity_needed` — SQL `SUM` of no rows is
NULL, modelled as 0); on success moves to `in_progress` assigned to the
actor. -/
def acceptRequest (st : MRState) (userId : Nat) (userRole : String) :
    MROutcome × MRState :=
  if userRole ∉ sourceRoles then (.forbidden, st)
  else if st.request.status ∉ [MRStatus.pending, .available, .rejected] then
    (.badStatus, st)
  else
    let total := sourceTotal st.lots st.request.item_name_requested userId
    if total = 0 ∨ total < st.request.quantity_needed then
      (.insufficientInventory, st)
    else
      (.ok, { st with request :=
        { st.request with status := .in_progress,
                          assigned_source_id := some userId } })

/-- `PUT /medicine-requests/:id/reject`: sources only; allowed from
`in_progress` (assigned source only — `parseInt(null)` never equals the
user id) or `available`; clears the assignment, sets `rejected`, then
re-runs the inventory check and, if some source qualifies, immediately
re-promotes the request to `available` with that source. -/
def rejectRequest (st : MRState) (userId : Nat) (userRole : String) :
    MROutcome × MRState :=
  if userRole ∉ sourceRoles then (.forbidden, st)
  else if st.request.status ∉ [MRStatus.in_progress, .available] then
    (.badStatus, st)
  else if st.request.status = .in_progress ∧
      st.request.assigned_source_id ≠ some userId then (.notOwner, st)
  else
    let r1 := { st.request with status := MRStatus.rejected,
                                assigned_source_id := none }
    let chk := checkInventoryAndSetStatus st.lots
      st.request.item_name_requested st.request.quantity_needed
    if chk.status = .available then
      (.ok, { st with request :=
        { r1 with status := .available,
                  assigned_source_id := chk.assigned_source_id } })
    else (.ok, { st with request := r1 })

/-- The lots the fulfill transaction fetches: the assigned source's
matching positive-quantity lots, `ORDER BY quantity_available DESC`. -/
def insertDesc (x : Lot) : List Lot → List Lot
  | [] => [x]
  | y :: ys =>
    if y.quantity_available < x.quantity_available then x :: y :: ys
    else y :: insertDesc x ys

/-- Insertion sort by descending `quantity_available`. -/
def sortByQtyDesc : List Lot → List Lot
  | [] => []
  | x :: xs => insertDesc x (sortByQtyDesc xs)

/-- The `ORDER BY quantity_available DESC` relation between lots. -/
def lotGe (a b : Lot) : Prop :=
  b.quantity_available ≤ a.quantity_available

/-- Sum of the `quantity_available` of a list of lots. -/
def lotsTotal (lots : List Lot) : Int :=
  (lots.map (fun l => l.quantity_available)).sum

/-- The fulfill loop: walk the fetched lots, and while `remaining > 0`
decrement each by `min(remaining, quantity_available)`; once the
remainder hits zero the rest are untouched. -/
def greedyDecrement (remaining : Int) : List Lot → List Lot
  | [] => []
  | l :: ls =>
    if remaining ≤ 0 then l :: ls
    else
      { l with quantity_available :=
          l.quantity_available - min remaining l.quantity_available } ::
        greedyDecrement (remaining - min remaining l.quantity_available) ls

/-- The matching lots fetched inside the fulfill transaction. -/
def fetchedLots (lots : List Lot) (itemName : String) (src : Nat) :
    List Lot :=
  sortByQtyDesc (lots.filter (lotMatches itemName src))

/-- Write the per-row `UPDATE inventory_registry ... WHERE item_id = ?`
statements back into the full table. -/
def applyLotUpdates (lots upds : List Lot) : List Lot :=
  lots.map (fun l =>
    match upds.find? (fun u => u.item_id == l.item_id) with
    | some u => u
    | none => l)

/-- `PUT /medicine-requests/:id/fulfill`: assigned source or admin;
allowed only from `in_progress`.  Sets the request `fulfilled` (recording
the fulfiller), fetches the assigned source's matching lots in descending
quantity order, and greedily decrements them; an unassigned source id
(SQL NULL) matches no lots.  There is no re-check that the matched
availability still covers `quantity_needed`. -/
def fulfillRequest (st : MRState) (userId : Nat) (userRole : String) :
    MROutcome × MRState :=
  if userRole ≠ "admin" ∧ userRole ∉ sourceRoles then (.forbidden, st)
  else if userRole ≠ "admin" ∧
      st.request.assigned_source_id ≠ some userId then (.notOwner, st)
  else if st.request.status ≠ .in_progress then (.badStatus, st)
  else
    let fetched := match st.request.assigned_source_id with
      | some src => fetchedLots st.lots st.request.item_name_requested src
      | none => []
    let updated := greedyDecrement st.request.quantity_needed fetched
    (.ok,
      { request := { st.request with status := .fulfilled,
                                     fulfilled_by := some userId },
        lots := applyLotUpdates st.lots updated })

/-- `PUT /medicine-requests/:id/cancel`: patient only, own request only,
disallowed once `fulfilled` or `cancelled`.  The single `UPDATE` sets
`status = 'cancelled'` and touches nothing else — no inventory query runs
anywhere in the handler. -/
def cancelRequest (st : MRState) (userId : Nat) (userRole : String) :
    MROutcome × MRState :=
  if userRole ≠ "patient" then (.forbidden, st)
  else if st.request.patient_id ≠ userId then (.notOwner, st)
  else if st.request.status = .fulfilled ∨ st.request.status = .cancelled then
    (.badStatus, st)
  else
    (.ok, { st with request := { st.request with status := .cancelled } })

/-- `PUT /medicine-requests/:id`: admin or the assigned source may update
the `notes` field only (`notes || null` turns an empty string into NULL);
the status is never touched. -/
def updateNotesRequest (st : MRState) (userId : Nat) (userRole : String)
    (notesP : NotesParam) : MROutcome × MRState :=
  if userRole = "admin" ∨
      (userRole ∈ sourceRoles ∧
        st.request.assigned_source_id = some userId) then
    match notesP with
    | none => (.noFields, st)
    | some v =>
      let v' := match v with
        | some s => if s = "" then none else some s
        | none => none
      (.ok, { st with request := { st.request with notes := v' } })
  else if userRole ∈ sourceRoles then (.notOwner, st)
  else (.forbidden, st)

/-! Concrete database states used to exercise the model. -/

/-- A sponsored request at 400 of 500 raised (spec Scenario B). -/
def scenarioB : FundingState := ⟨⟨1, true, 500, 400, .funded⟩, []⟩

/-- A sponsored request whose goal is fully raised and whose verification
was approved, closing it. -/
def closedRequestSt : FundingState := ⟨⟨2, true, 500, 500, .closed⟩, []⟩

/-- An open sponsored request with nothing raised yet. -/
def openRequestSt : FundingState := ⟨⟨3, true, 500, 0, .open_⟩, []⟩

/-- Doctor 2 with an unbooked slot 7, patient 3, no consultations yet. -/
def bookDemo : BookingState :=
  ⟨[⟨2, "doctor"⟩, ⟨3, "patient"⟩], [⟨7, 2, false, none⟩], [], 1⟩

/-- Doctor 2 whose slot 7 is booked by patient 3's pending
consultation 1. -/
def bookedDemo : BookingState :=
  ⟨[⟨2, "doctor"⟩, ⟨3, "patient"⟩], [⟨7, 2, true, some 1⟩],
    [⟨1, 3, 2, some 7, .pending, "video", none, none⟩], 2⟩

/-- Spec Scenario C: patient 5 needs 30 "Paracetamol" units, in progress
with source 6, whose matching lots hold 20 and 15 units. -/
def scenarioC : MRState :=
  ⟨⟨1, 5, "Paracetamol", 30, "Gaza", some 6, .in_progress, none, none⟩,
    [⟨1, "Paracetamol", 6, 20⟩, ⟨2, "Paracetamol", 6, 15⟩]⟩

/-- Same in-progress request, but source 6 now holds only 10 matching
units (the inventory changed between accept and fulfill). -/
def shortfallSt : MRState :=
  ⟨⟨1, 5, "Paracetamol", 30, "Gaza", some 6, .in_progress, none, none⟩,
    [⟨1, "Paracetamol", 6, 10⟩]⟩

/-- A fulfilled (terminal) medicine request. -/
def fulfilledSt : MRState :=
  ⟨⟨2, 5, "Insulin", 10, "Rafah", some 6, .fulfilled, none, some 6⟩,
    [⟨4, "Insulin", 6, 12⟩]⟩

/-- A pending medicine request whose item source 6 can cover. -/
def pendingSt : MRState :=
  ⟨⟨3, 5, "Insulin", 10, "Rafah", none, .pending, none, none⟩,
    [⟨4, "Insulin", 6, 12⟩]⟩

/-! Theorems.  Each claim of the specification gets one theorem below;
shared helper lemmas come first. -/

/-- Looking a key up after an `UPDATE ... WHERE id = ?` returns the
updated row, provided the update does not change the key. -/
theorem findById_updateById {α : Type} (key : α → Nat) (l : List α)
    (k : Nat) (f : α → α) (hf : ∀ x, key (f x) = key x) :
    findById key (updateById key l k f) k = (findById key l k).map f := by
  induction l with
  | nil => rfl
  | cons x xs ih =>
    simp only [findById, updateById, List.map_cons] at *
    cases hkx : (key x == k)
    · simp only [hkx, if_false, List.find?, Bool.false_eq_true]
      exact ih
    · simp [List.find?, hkx, hf]

/-- Rows whose key differs are untouched by `UPDATE ... WHERE id = ?`. -/
theorem mem_updateById_of_ne {α : Type} (key : α → Nat) (l : List α)
    (k : Nat) (f : α → α) (x : α) (hx : x ∈ l) (hne : key x ≠ k) :
    x ∈ updateById key l k f := by
  unfold updateById
  have hfix : (fun y => if key y == k then f y else y) x = x := by
    simp [hne]
  have := List.mem_map_of_mem (fun y => if key y == k then f y else y) hx
  rwa [hfix] at this

/-- The JS `reduce` step returns either its accumulator or a list
element. -/
theorem pickBestAux_eq_or_mem (l : List (Nat × Int)) :
    ∀ p, pickBestAux p l = p ∨ pickBestAux p l ∈ l := by
  induction l with
  | nil => intro p; exact Or.inl rfl
  | cons c cs ih =>
    intro p
    show pickBestAux (if c.2 < p.2 then p else c) cs = p ∨
      pickBestAux (if c.2 < p.2 then p else c) cs ∈ c :: cs
    rcases ih (if c.2 < p.2 then p else c) with h | h
    · rw [h]
      split_ifs with hc
      · exact Or.inl rfl
      · exact Or.inr (List.mem_cons_self _ _)
    · exact Or.inr (List.mem_cons_of_mem _ h)

/-- The accumulator's aggregate never decreases along the `reduce`. -/
theorem le_pickBestAux (l : List (Nat × Int)) :
    ∀ p, p.2 ≤ (pickBestAux p l).2 := by
  induction l with
  | nil => intro p; exact le_refl _
  | cons c cs ih =>
    intro p
    show p.2 ≤ (pickBestAux (if c.2 < p.2 then p else c) cs).2
    split_ifs with hc
    · exact ih p
    · exact le_trans (not_lt.mp hc) (ih c)

/-- Every list element's aggregate is bounded by the `reduce` result. -/
theorem mem_le_pickBestAux (l : List (Nat × Int)) :
    ∀ p c, c ∈ l → c.2 ≤ (pickBestAux p l).2 := by
  induction l with
  | nil => intro p c hc; cases hc
  | cons x xs ih =>
    intro p c hc
    show c.2 ≤ (pickBestAux (if x.2 < p.2 then p else x) xs).2
    rcases List.mem_cons.mp hc with h | h
    · subst h
      split_ifs with hcp
      · exact le_trans (le_of_lt hcp) (le_pickBestAux xs p)
      · exact le_pickBestAux xs c
    · exact ih _ c h

/-- On a non-empty list, `reduce` returns a member of maximal
aggregate. -/
theorem pickBest_some_spec (l : List (Nat × Int)) (b : Nat × Int)
    (h : pickBest l = some b) : b ∈ l ∧ ∀ c ∈ l, c.2 ≤ b.2 := by
  cases l with
  | nil => cases h
  | cons x xs =>
    simp only [pickBest, Option.some.injEq] at h
    subst h
    constructor
    · rcases pickBestAux_eq_or_mem xs x with h | h
      · rw [h]; exact List.mem_cons_self _ _
      · exact List.mem_cons_of_mem _ h
    · intro c hc
      rcases List.mem_cons.mp hc with h | h
      · subst h; exact le_pickBestAux xs c
      · exact mem_le_pickBestAux xs x c h

/-- Members of an insertion are the inserted lot or prior members. -/
theorem mem_insertDesc (x y : Lot) (l : List Lot) :
    y ∈ insertDesc x l ↔ y = x ∨ y ∈ l := by
  induction l with
  | nil => simp [insertDesc]
  | cons z zs ih =>
    unfold insertDesc
    split_ifs with h
    · simp only [List.mem_cons]
    · simp only [List.mem_cons, ih]
      tauto

/-- Inserting into a descending-sorted list keeps it sorted. -/
theorem sorted_insertDesc (x : Lot) (l : List Lot)
    (h : List.Sorted lotGe l) : List.Sorted lotGe (insertDesc x l) := by
  induction l with
  | nil => simp [insertDesc]
  | cons z zs ih =>
    rw [List.sorted_cons] at h
    obtain ⟨hz, hzs⟩ := h
    unfold insertDesc
    split_ifs with hlt
    · rw [List.sorted_cons]
      refine ⟨?_, List.sorted_cons.mpr ⟨hz, hzs⟩⟩
      intro b hb
      rcases List.mem_cons.mp hb with rfl | hb
      · exact le_of_lt hlt
      · exact le_trans (hz b hb) (le_of_lt hlt)
    · rw [List.sorted_cons]
      refine ⟨?_, ih hzs⟩
      intro b hb
      rcases (mem_insertDesc x b zs).mp hb with rfl | hb
      · exact not_lt.mp hlt
      · exact hz b hb

/-- The fetched lots come out sorted by descending quantity. -/
theorem sorted_sortByQtyDesc (l : List Lot) :
    List.Sorted lotGe (sortByQtyDesc l) := by
  induction l with
  | nil => simp [sortByQtyDesc]
  | cons x xs ih => exact sorted_insertDesc x _ ih

/-- Sorting does not change the set of lots. -/
theorem mem_sortByQtyDesc (y : Lot) (l : List Lot) :
    y ∈ sortByQtyDesc l ↔ y ∈ l := by
  induction l with
  | nil => simp [sortByQtyDesc]
  | cons x xs ih =>
    unfold sortByQtyDesc
    rw [mem_insertDesc, ih, List.mem_cons]

/-- Totalling after a cons. -/
theorem lotsTotal_cons (x : Lot) (l : List Lot) :
    lotsTotal (x :: l) = x.quantity_available + lotsTotal l := by
  simp [lotsTotal]

/-- Insertion adds the inserted lot's quantity to the total. -/
theorem lotsTotal_insertDesc (x : Lot) (l : List Lot) :
    lotsTotal (insertDesc x l) = x.quantity_available + lotsTotal l := by
  induction l with
  | nil => simp [insertDesc, lotsTotal]
  | cons z zs ih =>
    unfold insertDesc
    split_ifs with h
    · rfl
    · rw [lotsTotal_cons, ih, lotsTotal_cons]
      ring

/-- Sorting preserves the total quantity. -/
theorem lotsTotal_sortByQtyDesc (l : List Lot) :
    lotsTotal (sortByQtyDesc l) = lotsTotal l := by
  induction l with
  | nil => rfl
  | cons x xs ih =>
    unfold sortByQtyDesc
    rw [lotsTotal_insertDesc, ih, lotsTotal_cons]

/-- Totals of nonnegative lots are nonnegative. -/
theorem lotsTotal_nonneg (l : List Lot)
    (h : ∀ x ∈ l, 0 ≤ x.quantity_available) : 0 ≤ lotsTotal l := by
  induction l with
  | nil => simp [lotsTotal]
  | cons x xs ih =>
    rw [lotsTotal_cons]
    have h1 := h x (List.mem_cons_self _ _)
    have h2 := ih (fun z hz => h z (List.mem_cons_of_mem _ hz))
    omega

/-- The greedy loop never drives a quantity negative. -/
theorem greedyDecrement_nonneg (l : List Lot) : ∀ r : Int,
    (∀ x ∈ l, 0 ≤ x.quantity_available) →
    ∀ y ∈ greedyDecrement r l, 0 ≤ y.quantity_available := by
  induction l with
  | nil => intro r h y hy; cases hy
  | cons x xs ih =>
    intro r h y hy
    unfold greedyDecrement at hy
    split_ifs at hy with hr
    · exact h y hy
    · rcases List.mem_cons.mp hy with rfl | hy
      · have hx := h x (List.mem_cons_self _ _)
        have hm : min r x.quantity_available ≤ x.quantity_available :=
          min_le_right _ _
        show 0 ≤ x.quantity_available - min r x.quantity_available
        omega
      · exact ih _ (fun z hz => h z (List.mem_cons_of_mem _ hz)) y hy

/-- Each lot keeps its identity and is decremented, never increased. -/
theorem greedyDecrement_forall2 (l : List Lot) : ∀ r : Int,
    (∀ x ∈ l, 0 ≤ x.quantity_available) →
    List.Forall₂ (fun o u => u.item_id = o.item_id ∧ u.name = o.name ∧
      u.source_id = o.source_id ∧
      u.quantity_available ≤ o.quantity_available)
      l (greedyDecrement r l) := by
  induction l with
  | nil => intro r h; exact List.Forall₂.nil
  | cons x xs ih =>
    intro r h
    unfold greedyDecrement
    split_ifs with hr
    · exact List.forall₂_same.mpr
        (fun z hz => ⟨rfl, rfl, rfl, le_refl _⟩)
    · refine List.Forall₂.cons ⟨rfl, rfl, rfl, ?_⟩
        (ih _ (fun z hz => h z (List.mem_cons_of_mem _ hz)))
      have hx := h x (List.mem_cons_self _ _)
      have hmin : 0 ≤ min r x.quantity_available :=
        le_min (le_of_lt (not_le.mp hr)) hx
      show x.quantity_available - min r x.quantity_available ≤
        x.quantity_available
      omega

/-- Conservation: one greedy pass removes exactly
`min (max remaining 0) (total)` units in aggregate. -/
theorem lotsTotal_greedyDecrement (l : List Lot) : ∀ r : Int,
    (∀ x ∈ l, 0 ≤ x.quantity_available) →
    lotsTotal l - lotsTotal (greedyDecrement r l) =
      min (max r 0) (lotsTotal l) := by
  induction l with
  | nil =>
    intro r h
    simp only [greedyDecrement, lotsTotal, List.map_nil, List.sum_nil]
    omega
  | cons x xs ih =>
    intro r h
    have hx := h x (List.mem_cons_self _ _)
    have hxs : ∀ z ∈ xs, 0 ≤ z.quantity_available :=
      fun z hz => h z (List.mem_cons_of_mem _ hz)
    have htot : 0 ≤ lotsTotal xs := lotsTotal_nonneg xs hxs
    unfold greedyDecrement
    split_ifs with hr
    · rw [lotsTotal_cons]
      omega
    · have hrec := ih (r - min r x.quantity_available) hxs
      rw [lotsTotal_cons, lotsTotal_cons]
      show x.quantity_available + lotsTotal xs -
        (x.quantity_available - min r x.quantity_available +
          lotsTotal (greedyDecrement (r - min r x.quantity_available) xs))
        = _
      omega

/-- C7 (confirmed): when some source's aggregate over matching lots meets
the needed quantity, the check returns `available` with a source of
maximal aggregate; when no single source meets it, it returns `pending`
with no source, even if matching inventory exists. -/
theorem matchAvailability_spec (lots : List Lot) (item : String)
    (q : Int) :
    ((∃ s ∈ matchingSources lots item, q ≤ sourceTotal lots item s) →
      ∃ s, checkInventoryAndSetStatus lots item q =
          ⟨.available, some s⟩
        ∧ s ∈ matchingSources lots item
        ∧ q ≤ sourceTotal lots item s
        ∧ ∀ t ∈ matchingSources lots item,
            sourceTotal lots item t ≤ sourceTotal lots item s)
    ∧ ((∀ s ∈ matchingSources lots item, sourceTotal lots item s < q) →
      checkInventoryAndSetStatus lots item q = ⟨.pending, none⟩) := by
  constructor
  · rintro ⟨s, hsm, hsq⟩
    have hmem : (s, sourceTotal lots item s) ∈
        qualifyingSources lots item q := by
      unfold qualifyingSources
      exact List.mem_filter.mpr
        ⟨List.mem_map.mpr ⟨s, hsm, rfl⟩, by simpa using hsq⟩
    obtain ⟨b, hb⟩ : ∃ b, pickBest (qualifyingSources lots item q) =
        some b := by
      cases hq : pickBest (qualifyingSources lots item q) with
      | none =>
        cases hl : qualifyingSources lots item q with
        | nil => rw [hl] at hmem; cases hmem
        | cons y ys => rw [hl] at hq; cases hq
      | some b => exact ⟨b, rfl⟩
    obtain ⟨hbmem, hbmax⟩ := pickBest_some_spec _ b hb
    obtain ⟨hbm, hbq⟩ := List.mem_filter.mp hbmem
    obtain ⟨s', hs', heq⟩ := List.mem_map.mp hbm
    subst heq
    refine ⟨s', ?_, hs', ?_, ?_⟩
    · unfold checkInventoryAndSetStatus
      rw [hb]
    · simpa using hbq
    · intro t htm
      by_cases hts : q ≤ sourceTotal lots item t
      · have htmem : (t, sourceTotal lots item t) ∈
            qualifyingSources lots item q := by
          unfold qualifyingSources
          exact List.mem_filter.mpr
            ⟨List.mem_map.mpr ⟨t, htm, rfl⟩, by simpa using hts⟩
        exact hbmax _ htmem
      · have h1 : sourceTotal lots item t < q := not_le.mp hts
        have h2 : q ≤ sourceTotal lots item s' := by simpa using hbq
        exact le_of_lt (lt_of_lt_of_le h1 h2)
  · intro hall
    have hnil : qualifyingSources lots item q = [] := by
      rw [List.eq_nil_iff_forall_not_mem]
      intro p hp
      obtain ⟨hpm, hpq⟩ := List.mem_filter.mp hp
      obtain ⟨s', hs', heq⟩ := List.mem_map.mp hpm
      have h1 : q ≤ p.2 := by simpa using hpq
      have h2 : p.2 = sourceTotal lots item s' := by rw [← heq]
      exact absurd (hall s' hs') (not_lt.mpr (h2 ▸ h1))
    unfold checkInventoryAndSetStatus
    rw [hnil]
    rfl

/-- C7 witness: source 6 holds 20 + 15 matching "Paracetamol" units,
source 4 holds 10; a need of 30 is met only by source 6, which is
selected with status `available`. -/
theorem matchAvailability_spec_witness :
    ∃ s, checkInventoryAndSetStatus
        [⟨1, "Paracetamol 500mg", 6, 20⟩, ⟨2, "Paracetamol", 6, 15⟩,
         ⟨3, "Paracetamol", 4, 10⟩] "Paracetamol" 30 =
        ⟨.available, some s⟩
      ∧ s ∈ matchingSources
          [⟨1, "Paracetamol 500mg", 6, 20⟩, ⟨2, "Paracetamol", 6, 15⟩,
           ⟨3, "Paracetamol", 4, 10⟩] "Paracetamol"
      ∧ (30 : Int) ≤ sourceTotal
          [⟨1, "Paracetamol 500mg", 6, 20⟩, ⟨2, "Paracetamol", 6, 15⟩,
           ⟨3, "Paracetamol", 4, 10⟩] "Paracetamol" s
      ∧ ∀ t ∈ matchingSources
          [⟨1, "Paracetamol 500mg", 6, 20⟩, ⟨2, "Paracetamol", 6, 15⟩,
           ⟨3, "Paracetamol", 4, 10⟩] "Paracetamol",
          sourceTotal [⟨1, "Paracetamol 500mg", 6, 20⟩,
            ⟨2, "Paracetamol", 6, 15⟩, ⟨3, "Paracetamol", 4, 10⟩]
            "Paracetamol" t ≤
          sourceTotal [⟨1, "Paracetamol 500mg", 6, 20⟩,
            ⟨2, "Paracetamol", 6, 15⟩, ⟨3, "Paracetamol", 4, 10⟩]
            "Paracetamol" s :=
  (matchAvailability_spec
    [⟨1, "Paracetamol 500mg", 6, 20⟩, ⟨2, "Paracetamol", 6, 15⟩,
     ⟨3, "Paracetamol", 4, 10⟩] "Paracetamol" 30).1
    ⟨6, by decide, by decide⟩

/-- C4 (amended): an authorized Fulfill call on an `in_progress` request
succeeds and processes the assigned source's matching lots in descending
`quantity_available` order, decrementing greedily; no lot goes negative
and the aggregate decrement equals `min(quantity_needed, total matching
availability)` — which is exactly `quantity_needed` whenever the matched
availability still covers the need (the handler performs no sufficiency
re-check at fulfillment time). -/
theorem fulfill_greedy_spec (st : MRState) (userId src : Nat)
    (userRole : String)
    (hsrc : st.request.assigned_source_id = some src)
    (hauth : userRole = "admin" ∨
      (userRole ∈ sourceRoles ∧ userId = src))
    (hstat : st.request.status = .in_progress)
    (hnn : ∀ l ∈ st.lots, 0 ≤ l.quantity_available)
    (hq : 0 ≤ st.request.quantity_needed) :
    (fulfillRequest st userId userRole).1 = .ok
    ∧ (fulfillRequest st userId userRole).2.request.status = .fulfilled
    ∧ (fulfillRequest st userId userRole).2.lots =
        applyLotUpdates st.lots
          (greedyDecrement st.request.quantity_needed
            (fetchedLots st.lots st.request.item_name_requested src))
    ∧ List.Sorted lotGe
        (fetchedLots st.lots st.request.item_name_requested src)
    ∧ List.Forall₂ (fun o u => u.item_id = o.item_id ∧ u.name = o.name ∧
        u.source_id = o.source_id ∧
        u.quantity_available ≤ o.quantity_available)
        (fetchedLots st.lots st.request.item_name_requested src)
        (greedyDecrement st.request.quantity_needed
          (fetchedLots st.lots st.request.item_name_requested src))
    ∧ (∀ y ∈ greedyDecrement st.request.quantity_needed
          (fetchedLots st.lots st.request.item_name_requested src),
        0 ≤ y.quantity_available)
    ∧ lotsTotal (fetchedLots st.lots st.request.item_name_requested src) -
        lotsTotal (greedyDecrement st.request.quantity_needed
          (fetchedLots st.lots st.request.item_name_requested src)) =
        min st.request.quantity_needed
          (lotsTotal (fetchedLots st.lots st.request.item_name_requested src))
    ∧ (st.request.quantity_needed ≤
        lotsTotal (fetchedLots st.lots st.request.item_name_requested src) →
      lotsTotal (fetchedLots st.lots st.request.item_name_requested src) -
        lotsTotal (greedyDecrement st.request.quantity_needed
          (fetchedLots st.lots st.request.item_name_requested src)) =
        st.request.quantity_needed) := by
  have hfn : ∀ x ∈ fetchedLots st.lots st.request.item_name_requested src,
      0 ≤ x.quantity_available := by
    intro x hx
    unfold fetchedLots at hx
    rw [mem_sortByQtyDesc] at hx
    exact hnn x (List.mem_filter.mp hx).1
  have hcons := lotsTotal_greedyDecrement
    (fetchedLots st.lots st.request.item_name_requested src)
    st.request.quantity_needed hfn
  rw [max_eq_left hq] at hcons
  have hcall : fulfillRequest st userId userRole =
      (.ok,
        { request := { st.request with status := .fulfilled,
                                       fulfilled_by := some userId },
          lots := applyLotUpdates st.lots
            (greedyDecrement st.request.quantity_needed
              (fetchedLots st.lots st.request.item_name_requested src)) })
      := by
    unfold fulfillRequest
    rcases hauth with h | ⟨h1, h2⟩
    · rw [if_neg (by simp [h]), if_neg (by simp [h]),
        if_neg (by simp [hstat]), hsrc]
    · subst h2
      rw [if_neg (by simp [h1]), if_neg (by simp [hsrc]),
        if_neg (by simp [hstat]), hsrc]
  refine ⟨?_, ?_, ?_, sorted_sortByQtyDesc _,
    greedyDecrement_forall2 _ _ hfn, greedyDecrement_nonneg _ _ hfn,
    hcons, ?_⟩
  · rw [hcall]
  · rw [hcall]
  · rw [hcall]
  · intro hsuff
    rw [hcons]
    exact min_eq_left hsuff

/-- C4 witness: spec Scenario C through the amended theorem — source 6's
lots of 20 and 15 cover the need of 30, the aggregate decrement is
exactly 30, and the lots end at 0 and 5. -/
theorem fulfill_greedy_spec_witness :
    (fulfillRequest scenarioC 6 "hospital").1 = .ok
    ∧ (fulfillRequest scenarioC 6 "hospital").2.request.status = .fulfilled
    ∧ lotsTotal (fetchedLots scenarioC.lots "Paracetamol" 6) -
        lotsTotal (greedyDecrement 30
          (fetchedLots scenarioC.lots "Paracetamol" 6)) = 30
    ∧ (fulfillRequest scenarioC 6 "hospital").2.lots =
        [⟨1, "Paracetamol", 6, 0⟩, ⟨2, "Paracetamol", 6, 5⟩] := by
  have h := fulfill_greedy_spec scenarioC 6 6 "hospital" rfl
    (Or.inr ⟨by decide, rfl⟩) rfl (by decide) (by decide)
  exact ⟨h.1, h.2.1, h.2.2.2.2.2.2.2 (by decide), by decide⟩

/-- C4 counterexample: fulfilling an in-progress request for 30 units
when the assigned source's matching lots hold only 10 still succeeds and
decrements just 10 units — the sum of decrements is not
`quantity_needed`. -/
theorem fulfill_shortfall_cex :
    (fulfillRequest shortfallSt 6 "hospital").1 = .ok
    ∧ shortfallSt.request.quantity_needed = 30
    ∧ lotsTotal shortfallSt.lots -
        lotsTotal (fulfillRequest shortfallSt 6 "hospital").2.lots = 10
    ∧ (10 : Int) ≠ 30 := by
  decide

/-- C8 (confirmed): the medicine-request routes enforce the state
machine's guards — Accept succeeds only from `pending`/`available`/
`rejected`, Reject only from `in_progress`/`available`, Fulfill only from
`in_progress`, Cancel only from non-terminal states — and `fulfilled` is
terminal: no route changes the status of a fulfilled request. -/
theorem mr_state_machine (st : MRState) (uid : Nat) (role : String)
    (np : NotesParam) :
    ((acceptRequest st uid role).1 = .ok →
      st.request.status = .pending ∨ st.request.status = .available ∨
        st.request.status = .rejected)
    ∧ ((rejectRequest st uid role).1 = .ok →
      st.request.status = .in_progress ∨ st.request.status = .available)
    ∧ ((fulfillRequest st uid role).1 = .ok →
      st.request.status = .in_progress)
    ∧ ((cancelRequest st uid role).1 = .ok →
      st.request.status ≠ .fulfilled ∧ st.request.status ≠ .cancelled)
    ∧ (st.request.status = .fulfilled →
      (acceptRequest st uid role).2.request.status = .fulfilled
      ∧ (rejectRequest st uid role).2.request.status = .fulfilled
      ∧ (fulfillRequest st uid role).2.request.status = .fulfilled
      ∧ (cancelRequest st uid role).2.request.status = .fulfilled
      ∧ (updateNotesRequest st uid role np).2.request.status =
          .fulfilled) := by
  refine ⟨?_, ?_, ?_, ?_, ?_⟩
  · intro h
    unfold acceptRequest at h
    split_ifs at h <;> simp_all
  · intro h
    unfold rejectRequest at h
    split_ifs at h <;> simp_all
  · intro h
    unfold fulfillRequest at h
    split_ifs at h <;> simp_all
  · intro h
    unfold cancelRequest at h
    split_ifs at h <;> simp_all
  · intro hf
    refine ⟨?_, ?_, ?_, ?_, ?_⟩
    · unfold acceptRequest
      split_ifs <;> simp_all
    · unfold rejectRequest
      split_ifs <;> simp_all
    · unfold fulfillRequest
      split_ifs <;> simp_all
    · unfold cancelRequest
      split_ifs <;> simp_all
    · unfold updateNotesRequest
      cases np <;> split_ifs <;> simp_all

/-- C8 witness: the guard theorem applied at a coverable pending request
(Accept succeeds there, so its status is among the permitted ones) and at
a fulfilled request (every route leaves the status `fulfilled`). -/
theorem mr_state_machine_witness :
    (pendingSt.request.status = .pending ∨
      pendingSt.request.status = .available ∨
      pendingSt.request.status = .rejected)
    ∧ (acceptRequest fulfilledSt 6 "hospital").2.request.status = .fulfilled
    ∧ (rejectRequest fulfilledSt 6 "hospital").2.request.status = .fulfilled
    ∧ (fulfillRequest fulfilledSt 6 "hospital").2.request.status =
        .fulfilled
    ∧ (cancelRequest fulfilledSt 6 "hospital").2.request.status =
        .fulfilled
    ∧ (updateNotesRequest fulfilledSt 6 "hospital" none).2.request.status =
        .fulfilled := by
  have h1 := (mr_state_machine pendingSt 6 "hospital" none).1 (by decide)
  have h2 := (mr_state_machine fulfilledSt 6 "hospital" none).2.2.2.2 rfl
  exact ⟨h1, h2.1, h2.2.1, h2.2.2.1, h2.2.2.2.1, h2.2.2.2.2⟩

/-- C9 (confirmed): a successful patient cancellation changes only the
request's status (to `cancelled`); every other field of the request row
and the whole inventory table are untouched — no restocking happens. -/
theorem cancel_frame_spec (st : MRState) (uid : Nat)
    (hown : st.request.patient_id = uid)
    (h1 : st.request.status ≠ .fulfilled)
    (h2 : st.request.status ≠ .cancelled) :
    (cancelRequest st uid "patient").1 = .ok
    ∧ (cancelRequest st uid "patient").2.request.status = .cancelled
    ∧ (cancelRequest st uid "patient").2.request.request_id =
        st.request.request_id
    ∧ (cancelRequest st uid "patient").2.request.patient_id =
        st.request.patient_id
    ∧ (cancelRequest st uid "patient").2.request.item_name_requested =
        st.request.item_name_requested
    ∧ (cancelRequest st uid "patient").2.request.quantity_needed =
        st.request.quantity_needed
    ∧ (cancelRequest st uid "patient").2.request.delivery_location =
        st.request.delivery_location
    ∧ (cancelRequest st uid "patient").2.request.assigned_source_id =
        st.request.assigned_source_id
    ∧ (cancelRequest st uid "patient").2.request.notes = st.request.notes
    ∧ (cancelRequest st uid "patient").2.request.fulfilled_by =
        st.request.fulfilled_by
    ∧ (cancelRequest st uid "patient").2.lots = st.lots := by
  have hcall : cancelRequest st uid "patient" =
      (.ok, { st with request :=
        { st.request with status := .cancelled } }) := by
    unfold cancelRequest
    rw [if_neg (by simp), if_neg (by simp [hown]),
      if_neg (by simp [h1, h2])]
  rw [hcall]
  exact ⟨rfl, rfl, rfl, rfl, rfl, rfl, rfl, rfl, rfl, rfl, rfl⟩

/-- C9 witness: patient 5 cancels their pending request; only the status
changes and the inventory table is identical. -/
theorem cancel_frame_spec_witness :
    (cancelRequest pendingSt 5 "patient").1 = .ok
    ∧ (cancelRequest pendingSt 5 "patient").2.request.status = .cancelled
    ∧ (cancelRequest pendingSt 5 "patient").2.request.assigned_source_id =
        pendingSt.request.assigned_source_id
    ∧ (cancelRequest pendingSt 5 "patient").2.request.quantity_needed =
        pendingSt.request.quantity_needed
    ∧ (cancelRequest pendingSt 5 "patient").2.request.item_name_requested =
        pendingSt.request.item_name_requested
    ∧ (cancelRequest pendingSt 5 "patient").2.lots = pendingSt.lots := by
  have h := cancel_frame_spec pendingSt 5 rfl (by decide) (by decide)
  exact ⟨h.1, h.2.1, h.2.2.2.2.2.2.2.1, h.2.2.2.2.2.1, h.2.2.2.2.1,
    h.2.2.2.2.2.2.2.2.2.2⟩

/-- C1 (amended): under `POST /donations` the ledger is monotone and
bounded and an excess donation is rejected unchanged, while the webhook
adds any nonzero metadata amount unconditionally. -/
theorem donation_ledger_bounded (st : FundingState) (donorId rid did : Nat)
    (amt : Int) :
    st.request.raised_amount ≤
      (postDonation st donorId rid amt).2.request.raised_amount
    ∧ (st.request.raised_amount ≤ st.request.goal_amount →
        (postDonation st donorId rid amt).2.request.raised_amount ≤
          (postDonation st donorId rid amt).2.request.goal_amount)
    ∧ (st.request.goal_amount - st.request.raised_amount < amt →
        (postDonation st donorId rid amt).1.isCreated = false ∧
          (postDonation st donorId rid amt).2 = st)
    ∧ (amt ≠ 0 → rid ≠ 0 → did ≠ 0 → st.request.id = rid →
        (stripeWebhook st rid did amt).2.request.raised_amount =
          st.request.raised_amount + amt) := by
  refine ⟨?_, ?_, ?_, ?_⟩
  · unfold postDonation
    split_ifs <;> simp <;> omega
  · intro hb
    unfold postDonation
    split_ifs <;> simp
    all_goals omega
  · intro hex
    unfold postDonation
    split_ifs <;> simp_all [DonationOutcome.isCreated]
  · intro h1 h2 h3 h4
    unfold stripeWebhook
    split_ifs <;> simp_all

/-- C1 witness: the amended ledger theorem evaluated on Scenario B's
request, for a donation of 150 against a remaining amount of 100. -/
theorem donation_ledger_bounded_witness :
    scenarioB.request.raised_amount ≤
      (postDonation scenarioB 9 1 150).2.request.raised_amount
    ∧ (postDonation scenarioB 9 1 150).2.request.raised_amount ≤
        (postDonation scenarioB 9 1 150).2.request.goal_amount
    ∧ (postDonation scenarioB 9 1 150).1.isCreated = false
    ∧ (postDonation scenarioB 9 1 150).2 = scenarioB
    ∧ (stripeWebhook scenarioB 1 9 150).2.request.raised_amount =
        scenarioB.request.raised_amount + 150 := by
  have h := donation_ledger_bounded scenarioB 9 1 9 150
  exact ⟨h.1, h.2.1 (by decide), (h.2.2.1 (by decide)).1,
    (h.2.2.1 (by decide)).2,
    h.2.2.2 (by decide) (by decide) (by decide) (by decide)⟩

/-- C1 counterexample: the webhook applies a donation of 150 to Scenario
B's request although only 100 remains — it is not rejected, and
`raised_amount` ends at 550, above the 500 goal. -/
theorem webhook_accepts_excess_cex :
    scenarioB.request.goal_amount - scenarioB.request.raised_amount < 150
    ∧ (stripeWebhook scenarioB 1 9 150).1 = .applied ⟨1, 9, 150⟩
    ∧ (stripeWebhook scenarioB 1 9 150).2.request.raised_amount = 550
    ∧ scenarioB.request.goal_amount <
        (stripeWebhook scenarioB 1 9 150).2.request.raised_amount := by
  decide

/-- C3 (amended): the direct donation endpoint's contract, for calls whose
amount is a positive number (non-positive amounts are rejected earlier
with no state change): an amount above the remaining goal is rejected
with `remaining_amount` and no state change, otherwise the donation row is
appended, `raised_amount` grows by the amount, and status becomes `funded`
exactly when the goal is reached. -/
theorem postDonation_contract (st : FundingState) (donorId rid : Nat)
    (amt : Int)
    (hsp : st.request.sponsered = true)
    (hgoal : 0 < st.request.goal_amount)
    (hstatus : st.request.status = .open_ ∨ st.request.status = .funded)
    (hamt : 0 < amt)
    (hid : st.request.id = rid) (hr0 : rid ≠ 0) :
    (st.request.goal_amount - st.request.raised_amount < amt →
      postDonation st donorId rid amt =
        (.exceedsRemaining
          (st.request.goal_amount - st.request.raised_amount), st))
    ∧ (amt ≤ st.request.goal_amount - st.request.raised_amount →
      (postDonation st donorId rid amt).1 = .created ⟨rid, donorId, amt⟩
      ∧ (postDonation st donorId rid amt).2.donations =
          st.donations ++ [⟨rid, donorId, amt⟩]
      ∧ (postDonation st donorId rid amt).2.request.raised_amount =
          st.request.raised_amount + amt
      ∧ (postDonation st donorId rid amt).2.request.status =
          (if st.request.goal_amount ≤ st.request.raised_amount + amt
            then .funded else st.request.status)
      ∧ (postDonation st donorId rid amt).2.request.goal_amount =
          st.request.goal_amount
      ∧ (postDonation st donorId rid amt).2.request.id = st.request.id
      ∧ (postDonation st donorId rid amt).2.request.sponsered =
          st.request.sponsered) := by
  unfold postDonation
  rcases hstatus with hs | hs <;>
    split_ifs <;> simp_all <;> omega

/-- C3 witness: spec Scenario B — donating 150 against a remaining 100 is
rejected carrying `remaining_amount = 100`; donating 100 is accepted and
the request becomes `funded`. -/
theorem postDonation_contract_witness :
    postDonation scenarioB 9 1 150 = (.exceedsRemaining 100, scenarioB)
    ∧ (postDonation scenarioB 9 1 100).1 = .created ⟨1, 9, 100⟩
    ∧ (postDonation scenarioB 9 1 100).2.request.raised_amount = 500
    ∧ (postDonation scenarioB 9 1 100).2.request.status = .funded := by
  have h1 := postDonation_contract scenarioB 9 1 150 (by decide) (by decide)
    (Or.inr (by decide)) (by decide) (by decide) (by decide)
  have h2 := postDonation_contract scenarioB 9 1 100 (by decide) (by decide)
    (Or.inr (by decide)) (by decide) (by decide) (by decide)
  refine ⟨h1.1 (by decide), (h2.2 (by decide)).1, ?_, ?_⟩
  · rw [(h2.2 (by decide)).2.2.1]
    decide
  · rw [(h2.2 (by decide)).2.2.2.1]
    decide

/-- C3 counterexample: on an open sponsored request with 500 remaining, a
call with amount -1 does not exceed the remaining goal, yet no donation
row is inserted — the endpoint rejects the non-positive amount and leaves
the state unchanged, against the claim's unconditional `otherwise a
donation row is inserted`. -/
theorem nonpositive_amount_cex :
    ¬(openRequestSt.request.goal_amount -
        openRequestSt.request.raised_amount < -1)
    ∧ (postDonation openRequestSt 7 3 (-1)).1 = .invalidAmount
    ∧ (postDonation openRequestSt 7 3 (-1)).2 = openRequestSt := by
  decide

/-- C6 (amended): a `closed` request accepts no donation through the
direct endpoint and leaves `closed` through a verification rejection
(reverting to `funded`) — but also through the webhook, which applies
donations regardless of status and sets the status to `funded` whenever
the new total reaches the goal. -/
theorem closed_request_spec (st : FundingState) (donorId rid did : Nat)
    (amt : Int) (hc : st.request.status = .closed) :
    ((postDonation st donorId rid amt).1.isCreated = false
      ∧ (postDonation st donorId rid amt).2 = st)
    ∧ (rejectVerification st.request).status = .funded
    ∧ (approveVerification st.request).status = .closed
    ∧ (amt ≠ 0 → rid ≠ 0 → did ≠ 0 → st.request.id = rid →
        (stripeWebhook st rid did amt).2.request.raised_amount =
          st.request.raised_amount + amt
        ∧ (st.request.goal_amount ≤ st.request.raised_amount + amt →
            (stripeWebhook st rid did amt).2.request.status = .funded)) := by
  refine ⟨?_, ?_, ?_, ?_⟩
  · unfold postDonation
    split_ifs <;> simp_all [DonationOutcome.isCreated]
  · unfold rejectVerification
    simp [hc]
  · unfold approveVerification
    simp
  · intro h1 h2 h3 h4
    unfold stripeWebhook
    split_ifs <;> simp_all

/-- C6 witness: the amended theorem evaluated on a closed, fully-raised
request and a webhook donation of 50. -/
theorem closed_request_spec_witness :
    ((postDonation closedRequestSt 9 2 50).1.isCreated = false
      ∧ (postDonation closedRequestSt 9 2 50).2 = closedRequestSt)
    ∧ (rejectVerification closedRequestSt.request).status = .funded
    ∧ (stripeWebhook closedRequestSt 2 9 50).2.request.raised_amount =
        closedRequestSt.request.raised_amount + 50
    ∧ (stripeWebhook closedRequestSt 2 9 50).2.request.status = .funded := by
  have h := closed_request_spec closedRequestSt 9 2 9 50 (by decide)
  have hw := h.2.2.2 (by decide) (by decide) (by decide) (by decide)
  exact ⟨h.1, h.2.1, hw.1, hw.2 (by decide)⟩

/-- C2 (confirmed): a well-formed Book call (patient actor, valid mode,
ids present, notes absent) on an existing slot of the given doctor fails
with a conflict and changes nothing when the slot is booked; otherwise it
creates exactly one pending consultation and marks the slot booked with
the new consultation's id, leaving every other slot untouched. -/
theorem book_slot_spec (st : BookingState) (uid did sid : Nat)
    (mode : String) (u : User) (slot : Slot)
    (hdid : did ≠ 0) (hsid : sid ≠ 0)
    (hmode : mode = "video" ∨ mode = "audio" ∨ mode = "chat")
    (hu : findById User.id st.users did = some u) (hur : u.role = "doctor")
    (hs : findById Slot.id st.slots sid = some slot)
    (hsd : slot.doctor_id = did) :
    (slot.is_booked = true →
      postConsultation st uid "patient" did sid mode none =
        (.slotBooked, st))
    ∧ (slot.is_booked = false →
      (postConsultation st uid "patient" did sid mode none).1 =
        .created st.nextConsultationId
      ∧ (postConsultation st uid "patient" did sid mode none).2.consultations
          = st.consultations ++
            [{ id := st.nextConsultationId, patient_id := uid,
               doctor_id := did, slot_id := some sid, status := .pending,
               mode := mode, notes := none, specialty := none }]
      ∧ findById Slot.id
          (postConsultation st uid "patient" did sid mode none).2.slots sid
          = some { slot with is_booked := true,
                             consultation_id := some st.nextConsultationId }
      ∧ (∀ s ∈ st.slots, s.id ≠ sid →
          s ∈ (postConsultation st uid "patient" did sid mode none).2.slots)
      ∧ (postConsultation st uid "patient" did sid mode none).2.users =
          st.users) := by
  have hmode0 : mode ≠ "" := by rcases hmode with h | h | h <;> simp [h]
  have hmode2 : ¬(¬mode = "video" ∧ ¬mode = "audio" ∧ ¬mode = "chat") := by
    tauto
  constructor
  · intro hb
    simp [postConsultation, hdid, hsid, hmode0, hmode2, hu, hur, hs, hsd, hb]
  · intro hb
    have hcall : postConsultation st uid "patient" did sid mode none =
        (.created st.nextConsultationId,
          { st with
            consultations := st.consultations ++
              [{ id := st.nextConsultationId, patient_id := uid,
                 doctor_id := did, slot_id := some sid, status := .pending,
                 mode := mode, notes := none, specialty := none }],
            slots := updateById Slot.id st.slots sid
              (fun s => { s with is_booked := true,
                                 consultation_id :=
                                   some st.nextConsultationId }),
            nextConsultationId := st.nextConsultationId + 1 }) := by
      simp [postConsultation, hdid, hsid, hmode0, hmode2, hu, hur, hs, hsd,
        hb]
    refine ⟨?_, ?_, ?_, ?_, ?_⟩
    · rw [hcall]
    · rw [hcall]
    · rw [hcall]
      rw [findById_updateById Slot.id st.slots sid
        (fun s => { s with is_booked := true,
                           consultation_id := some st.nextConsultationId })
        (fun x => rfl), hs]
      rfl
    · intro s hsmem hsne
      rw [hcall]
      exact mem_updateById_of_ne Slot.id st.slots sid _ s hsmem hsne
    · rw [hcall]

/-- C2 witness: booking unbooked slot 7 of doctor 2 as patient 3 in the
demo state succeeds, creates pending consultation 1, and books the
slot. -/
theorem book_slot_spec_witness :
    (postConsultation bookDemo 3 "patient" 2 7 "video" none).1 = .created 1
    ∧ (postConsultation bookDemo 3 "patient" 2 7 "video" none).2.consultations
        = bookDemo.consultations ++
          [{ id := 1, patient_id := 3, doctor_id := 2, slot_id := some 7,
             status := .pending, mode := "video", notes := none,
             specialty := none }]
    ∧ findById Slot.id
        (postConsultation bookDemo 3 "patient" 2 7 "video" none).2.slots 7
        = some ⟨7, 2, true, some 1⟩ := by
  have h := book_slot_spec bookDemo 3 2 7 "video" ⟨2, "doctor"⟩
    ⟨7, 2, false, none⟩ (by decide) (by decide) (Or.inl rfl) (by decide)
    (by decide) (by decide) rfl
  have h2 := h.2 rfl
  exact ⟨h2.1, h2.2.1, h2.2.2.1⟩

/-- C5 (amended): `PUT /consultations/:id` never touches the
`consultation_slots` table: a successful patient cancellation sets the
consultation's status to `cancelled` yet leaves the slot row exactly as it
was — neither `is_booked` nor `consultation_id` is cleared, so the slot
does not become bookable again.  The slot is freed only by the admin-only
delete operation. -/
theorem cancellation_leaves_slot (st : BookingState) (uid : Nat)
    (role : String) (cid : Nat) (statusP : Option CStatus)
    (notesP : NotesParam) (c : Consultation)
    (hc : findById Consultation.id st.consultations cid = some c) :
    (putConsultation st uid role cid statusP notesP).2.slots = st.slots
    ∧ (role = "patient" → c.patient_id = uid → statusP = some .cancelled →
        notesP = none →
        (putConsultation st uid role cid statusP notesP).1 = .updated
        ∧ findById Consultation.id
            (putConsultation st uid role cid statusP notesP).2.consultations
            cid = some { c with status := .cancelled })
    ∧ (∀ sid slot, c.slot_id = some sid →
        findById Slot.id st.slots sid = some slot →
        findById Slot.id (deleteConsultation st "admin" cid).2.slots sid =
          some { slot with is_booked := false, consultation_id := none }) := by
  refine ⟨?_, ?_, ?_⟩
  · unfold putConsultation
    rw [hc]
    rcases statusP with _ | s <;> rcases notesP with _ | v <;>
      split_ifs <;> dsimp only <;> (try split_ifs) <;> rfl
  · intro h1 h2 h3 h4
    subst h1 h3 h4
    have hcall : putConsultation st uid "patient" cid
        (some .cancelled) none =
        (.updated,
          { st with
            consultations := updateById Consultation.id st.consultations cid
              (fun x => { x with status := .cancelled }) }) := by
      unfold putConsultation
      rw [hc]
      simp [h2]
    rw [hcall]
    refine ⟨rfl, ?_⟩
    rw [findById_updateById Consultation.id st.consultations cid
      (fun x => { x with status := .cancelled }) (fun x => rfl), hc]
    rfl
  · intro sid slot h1 h2
    unfold deleteConsultation
    rw [hc]
    simp only [h1]
    rw [if_neg (by simp)]
    rw [findById_updateById Slot.id st.slots sid
      (fun s => { s with is_booked := false, consultation_id := none })
      (fun x => rfl), h2]
    rfl

/-- C5 witness: the amended theorem on the demo state where patient 3
cancels consultation 1 linked to slot 7 — the slot row stays booked and
linked, and the admin delete is what clears it. -/
theorem cancellation_leaves_slot_witness :
    (putConsultation bookedDemo 3 "patient" 1 (some .cancelled) none).2.slots
      = bookedDemo.slots
    ∧ (putConsultation bookedDemo 3 "patient" 1
        (some .cancelled) none).1 = .updated
    ∧ findById Consultation.id
        (putConsultation bookedDemo 3 "patient" 1
          (some .cancelled) none).2.consultations 1
        = some ⟨1, 3, 2, some 7, .cancelled, "video", none, none⟩
    ∧ findById Slot.id (deleteConsultation bookedDemo "admin" 1).2.slots 7
        = some ⟨7, 2, false, none⟩ := by
  have h := cancellation_leaves_slot bookedDemo 3 "patient" 1
    (some .cancelled) none ⟨1, 3, 2, some 7, .pending, "video", none, none⟩
    (by decide)
  have h2 := h.2.1 rfl rfl rfl rfl
  exact ⟨h.1, h2.1, h2.2, h.2.2 7 ⟨7, 2, true, some 1⟩ rfl (by decide)⟩

/-- C5 counterexample: patient 3 cancels consultation 1, which is linked
to booked slot 7; the call succeeds and sets the status to `cancelled`,
but the slot row still has `is_booked = true` and `consultation_id = 1` —
nothing was cleared and the slot is not bookable again. -/
theorem cancel_does_not_clear_slot_cex :
    (putConsultation bookedDemo 3 "patient" 1 (some .cancelled) none).1
      = .updated
    ∧ findById Consultation.id
        (putConsultation bookedDemo 3 "patient" 1
          (some .cancelled) none).2.consultations 1
        = some ⟨1, 3, 2, some 7, .cancelled, "video", none, none⟩
    ∧ findById Slot.id
        (putConsultation bookedDemo 3 "patient" 1
          (some .cancelled) none).2.slots 7
        = some ⟨7, 2, true, some 1⟩ := by
  decide

/-- C10 (confirmed): consultation creation rejects any request whose
`notes` field is present and non-null, leaving the state unchanged (and,
once the actor and required-field guards pass, failing with exactly the
notes validation error); consequently every consultation created through
`POST /consultations` starts with `notes = NULL` and status `pending`. -/
theorem consultation_notes_guard (st : BookingState) (uid : Nat)
    (role : String) (did sid : Nat) (mode : String) (notesP : NotesParam) :
    (∀ s, notesP = some (some s) →
      (postConsultation st uid role did sid mode notesP).1.isCreated = false
      ∧ (postConsultation st uid role did sid mode notesP).2 = st
      ∧ (role = "patient" → did ≠ 0 → sid ≠ 0 → mode ≠ "" →
          (postConsultation st uid role did sid mode notesP).1 =
            .notesNotNull))
    ∧ (∀ cid st', postConsultation st uid role did sid mode notesP =
          (.created cid, st') →
        ∃ c, st'.consultations = st.consultations ++ [c]
          ∧ c.notes = none ∧ c.status = .pending ∧ c.id = cid) := by
  constructor
  · intro s hs
    subst hs
    unfold postConsultation
    split_ifs with h1 h2 h3
    · exact ⟨rfl, rfl, fun hr => absurd hr h1⟩
    · refine ⟨rfl, rfl, fun hr hd hsi hm => ?_⟩
      rcases h2 with h | h | h <;> simp_all
    · exact ⟨rfl, rfl, fun _ _ _ _ => rfl⟩
    · exact ⟨rfl, rfl, fun _ _ _ _ => rfl⟩
  · intro cid st' h
    unfold postConsultation at h
    repeat' split at h
    all_goals simp at h
    obtain ⟨h1, h2⟩ := h
    subst h1
    subst h2
    exact ⟨_, rfl, rfl, rfl, rfl⟩

/-- C10 witness: the guard theorem on the demo state — a create call
carrying non-null notes is rejected unchanged, and the call without notes
creates consultation 1 with NULL notes and status `pending`. -/
theorem consultation_notes_guard_witness :
    ((postConsultation bookDemo 3 "patient" 2 7 "video"
        (some (some "n"))).1.isCreated = false
      ∧ (postConsultation bookDemo 3 "patient" 2 7 "video"
          (some (some "n"))).2 = bookDemo
      ∧ (postConsultation bookDemo 3 "patient" 2 7 "video"
          (some (some "n"))).1 = .notesNotNull)
    ∧ ∃ c, (postConsultation bookDemo 3 "patient" 2 7 "video"
          none).2.consultations = bookDemo.consultations ++ [c]
        ∧ c.notes = none ∧ c.status = .pending ∧ c.id = 1 := by
  have h1 := (consultation_notes_guard bookDemo 3 "patient" 2 7 "video"
    (some (some "n"))).1 "n" rfl
  have h2 := (consultation_notes_guard bookDemo 3 "patient" 2 7 "video"
    none).2 1 (postConsultation bookDemo 3 "patient" 2 7 "video" none).2
    (by decide)
  exact ⟨⟨h1.1, h1.2.1,
    h1.2.2 rfl (by decide) (by decide) (by decide)⟩, h2⟩

/-- C6 counterexample: the webhook records a donation against a `closed`
request and moves its status back to `funded` — donations are still
accepted on that path and `closed` is left without a verification
rejection. -/
theorem closed_webhook_cex :
    closedRequestSt.request.status = .closed
    ∧ (stripeWebhook closedRequestSt 2 9 50).1 = .applied ⟨2, 9, 50⟩
    ∧ (stripeWebhook closedRequestSt 2 9 50).2.donations = [⟨2, 9, 50⟩]
    ∧ (stripeWebhook closedRequestSt 2 9 50).2.request.status = .funded
    ∧ TRStatus.funded ≠ .closed := by
  decide

end HealthPal
